import Mathlib

/-!
# Verification of the sui benchmark / simulator fragment

Shallow embedding of `src/crates/sui-simulator/src/lib.rs` and
`src/crates/sui-benchmark/tests/simtest.rs`, together with the components
they invoke (latency model, rate controller, in-flight limiter, workload
construction, driver cancellation, keypair base64 codec) as described by
the specification.  Durations are modelled as natural numbers of
nanoseconds, mirroring Rust's unsigned `Duration`.
-/

/-- `Duration::from_millis`: durations model Rust `std::time::Duration` as
counts of nanoseconds (plain naturals, so that linear arithmetic applies
directly). -/
def Duration.fromMillis (m : Nat) : Nat := m * 1000000

/-- A half-open duration range `lo..hi`, as in Rust range syntax. -/
structure DurationRange where
  lo : Nat
  hi : Nat
deriving DecidableEq, Repr

/-- Latency distribution descriptor.  `uniform` is the constructor used by
`LatencyDistribution::uniform(a..b)` in the source; `fixed` models the
spec's extension point ("design for extension to other distributions
(normal, fixed, ...)"). -/
inductive LatencyDistribution where
  | uniform (range : DurationRange)
  | fixed (d : Nat)
deriving DecidableEq, Repr

/-- Modelled from the spec: the `Default::default()` value of the
`default_latency` field of msim's `LatencyConfig` (msim is external to the
shown source).  Its concrete value is irrelevant to the claims; a fixed
zero delay stands for it. -/
def LatencyDistribution.default : LatencyDistribution := .fixed 0

/-- `LatencyConfig`: per-link (or default) distribution descriptor.
`default_latency` is the field set by the source; `per_link` models the
spec's per-link override map, left at its default by the preset. -/
structure LatencyConfig where
  default_latency : LatencyDistribution
  per_link : List (Nat × LatencyDistribution)
deriving DecidableEq, Repr

/-- Modelled from the spec: `Default::default()` for `LatencyConfig`. -/
def LatencyConfig.default : LatencyConfig :=
  { default_latency := LatencyDistribution.default, per_link := [] }

/-- Modelled from the spec: msim's `NetworkConfig` has further fields not
named in the shown source (the `..Default::default()` remainder); this
structure stands for them abstractly. -/
structure NetworkMisc where
  knobs : Nat
deriving DecidableEq, Repr

/-- Modelled from the spec: `Default::default()` for the unnamed remainder
of `NetworkConfig`. -/
def NetworkMisc.default : NetworkMisc := { knobs := 0 }

/-- `NetworkConfig`: the simulation session's network configuration. -/
structure NetworkConfig where
  latency : LatencyConfig
  misc : NetworkMisc
deriving DecidableEq, Repr

/-- Modelled from the spec: `Default::default()` for `NetworkConfig`. -/
def NetworkConfig.default : NetworkConfig :=
  { latency := LatencyConfig.default, misc := NetworkMisc.default }

/-- `SimConfig`, whose only field shown in the source is `net`. -/
structure SimConfig where
  net : NetworkConfig
deriving DecidableEq, Repr

namespace configs

/-- `configs::wan_latency_50ms` from `src/crates/sui-simulator/src/lib.rs`:
a `SimConfig` whose network latency defaults to a uniform distribution over
`40ms..60ms`, every other field left at `Default::default()`. -/
def wan_latency_50ms : SimConfig :=
  { net :=
      { NetworkConfig.default with
        latency :=
          { LatencyConfig.default with
            default_latency :=
              LatencyDistribution.uniform
                ⟨Duration.fromMillis 40, Duration.fromMillis 60⟩ } } }

end configs

/-! ## Latency model -/

/-- Modelled from the spec: the seeded pseudo-random generator bound to the
simulation session ("deterministic given a fixed random seed bound to the
simulation session").  One 64-bit linear-congruential step. -/
def lcgNext (s : Nat) : Nat :=
  (6364136223846793005 * s + 1442695040888963407) % 2 ^ 64

/-- The simulation session state visible to the latency model: its seeded
generator state plus a session identifier that sampling must not depend
on. -/
structure SimSession where
  rng : Nat
  sessionId : Nat
deriving DecidableEq, Repr

namespace LatencyModel

/-- Modelled from the spec: `LatencyModel.sample() -> Duration` ("the model
itself performs no I/O and holds no mutable state beyond its seeded
generator"); for a uniform distribution over `[lo, hi)` it maps one
generator draw into the range.  Returns the sampled duration and the
updated session. -/
def sample (d : LatencyDistribution) (s : SimSession) : Nat × SimSession :=
  let r := lcgNext s.rng
  match d with
  | .uniform range => (range.lo + r % (range.hi - range.lo), { s with rng := r })
  | .fixed dur => (dur, { s with rng := r })

/-- Runs a sequence of `sample()` calls (one latency distribution per
scheduled message), threading the session state, and collects the sampled
durations. -/
def sampleSeq : List LatencyDistribution → SimSession → List Nat
  | [], _ => []
  | d :: ds, s =>
    let (dur, s2) := sample d s
    dur :: sampleSeq ds s2

end LatencyModel

/-! ## Rate controller -/

namespace RateController

/-- Nanoseconds per second, the unit conversion for `target_qps`. -/
def nanosPerSec : Nat := 1000000000

/-- Modelled from the spec: `throttle(n_issued_so_far, elapsed) ->
wait_duration` with leaky-bucket semantics — the wait needed so the
long-run issuance rate converges to `target_qps`, never negative, zero
when at or behind schedule.  `elapsed` and the result are in
nanoseconds. -/
def throttle (target_qps n_issued_so_far elapsed : Nat) : Int :=
  max 0 ((n_issued_so_far * nanosPerSec / target_qps : Nat) - (elapsed : Int))

end RateController

/-! ## Workload spec and in-flight limiter -/

/-- Operation kinds of the combination workload. -/
inductive OpKind where
  | transferObject
  | sharedCounter
deriving DecidableEq, Repr

/-- `WorkloadSpec`: immutable descriptor of the benchmark workload
(spec §3).  The ratio field is written with a leading blank where the
source calls it `in_flight_ratio`. -/
structure WorkloadSpec where
  target_qps : Nat
  num_workers : Nat
  flight_ratio : ℚ
  num_transfer_accounts : Nat
  shared_counter_weight : Nat
  transfer_object_weight : Nat
deriving DecidableEq, Repr

namespace WorkloadSpec

/-- Total operation weight of the spec. -/
def totalWeight (s : WorkloadSpec) : Nat :=
  s.shared_counter_weight + s.transfer_object_weight

/-- Spec §3 invariants: positive rate, workers and ratio, weights summing
above zero. -/
def valid (s : WorkloadSpec) : Prop :=
  0 < s.target_qps ∧ 0 < s.num_workers ∧ 0 < s.flight_ratio ∧ 0 < s.totalWeight

instance (s : WorkloadSpec) : Decidable s.valid := by
  unfold valid; infer_instance

end WorkloadSpec

namespace InFlightLimiter

/-- Modelled from the spec: the slot capacity of the in-flight limiter,
`ceil(target_qps × in_flight_ratio)`. -/
def capacity (s : WorkloadSpec) : Nat :=
  Nat.ceil ((s.target_qps : ℚ) * s.flight_ratio)

/-- One limiter event: a worker calling `acquire()` or `release(token)`. -/
inductive Event where
  | acquire
  | release
deriving DecidableEq, Repr

/-- Modelled from the spec: the limiter's effect on the count of
outstanding tokens.  `acquire()` grants a token only when a slot is free
(otherwise the calling worker stays suspended and the count is unchanged);
`release` frees one slot. -/
def step (cap : Nat) (outstanding : Nat) : Event → Nat
  | .acquire => if outstanding < cap then outstanding + 1 else outstanding
  | .release => outstanding - 1

/-- Outstanding tokens after an arbitrary interleaving of acquire/release
events by the workers, starting from no outstanding tokens. -/
def run (s : WorkloadSpec) (trace : List Event) : Nat :=
  trace.foldl (step (capacity s)) 0

end InFlightLimiter

/-! ## Keypairs and the base64 codec -/

/-- Ed25519 key material, as a list of bytes (each `< 256`). -/
structure Ed25519KeyPair where
  priv : List Nat
deriving DecidableEq, Repr

/-- `SuiKeyPair` scheme enumeration: the source's first `match` has an
`Ed25519SuiKeyPair` arm and a catch-all arm, so at least one further
scheme exists. -/
inductive SuiKeyPair where
  | ed25519 (kp : Ed25519KeyPair)
  | secp256k1 (material : List Nat)
deriving DecidableEq, Repr

/-- Base64 encoding of a byte list into a list of sextets (the character
values of the base64 alphabet); a final 1-byte group yields 2 sextets and
a final 2-byte group yields 3, as with `=` padding. -/
def b64encode : List Nat → List Nat
  | [] => []
  | [a] => [a / 4, a % 4 * 16]
  | [a, b] => [a / 4, a % 4 * 16 + b / 16, b % 16 * 4]
  | a :: b :: c :: rest =>
    a / 4 :: (a % 4 * 16 + b / 16) :: (b % 16 * 4 + c / 64) :: c % 64 :: b64encode rest

/-- Base64 decoding of a sextet list back into bytes; rejects lengths
congruent to 1 mod 4 and nonzero trailing pad bits. -/
def b64decode : List Nat → Option (List Nat)
  | [] => some []
  | [_] => none
  | [s0, s1] => if s1 % 16 = 0 then some [s0 * 4 + s1 / 16] else none
  | [s0, s1, s2] =>
    if s2 % 4 = 0 then some [s0 * 4 + s1 / 16, s1 % 16 * 16 + s2 / 4] else none
  | s0 :: s1 :: s2 :: s3 :: rest =>
    (b64decode rest).map fun bs =>
      (s0 * 4 + s1 / 16) :: (s1 % 16 * 16 + s2 / 4) :: (s2 % 4 * 64 + s3) :: bs

/-- Byte tag of each keypair scheme, prefixed to the serialized key
material (`Ed25519` is scheme 0). -/
def SuiKeyPair.schemeByte : SuiKeyPair → Nat
  | .ed25519 _ => 0
  | .secp256k1 _ => 1

/-- Raw serialized bytes of a keypair: scheme tag then key material. -/
def SuiKeyPair.toBytes : SuiKeyPair → List Nat
  | .ed25519 kp => 0 :: kp.priv
  | .secp256k1 m => 1 :: m

/-- Modelled from the spec: `EncodeDecodeBase64::encode_base64` for
`SuiKeyPair` (defined in the external `sui_types` crate) — base64 of the
scheme-tagged key bytes. -/
def encode_base64 (k : SuiKeyPair) : List Nat :=
  b64encode k.toBytes

/-- Modelled from the spec: `SuiKeyPair::decode_base64` — base64-decode,
then rebuild the keypair from the scheme tag. -/
def decode_base64 (s : List Nat) : Option SuiKeyPair :=
  (b64decode s).bind fun bytes =>
    match bytes with
    | 0 :: rest => some (.ed25519 ⟨rest⟩)
    | 1 :: rest => some (.secp256k1 rest)
    | _ => none

/-- All entries of the key material are bytes. -/
def SuiKeyPair.wf : SuiKeyPair → Prop
  | .ed25519 kp => ∀ x ∈ kp.priv, x < 256
  | .secp256k1 m => ∀ x ∈ m, x < 256

instance : ∀ k : SuiKeyPair, Decidable k.wf
  | .ed25519 _ => by unfold SuiKeyPair.wf; infer_instance
  | .secp256k1 _ => by unfold SuiKeyPair.wf; infer_instance

/-- The key-extraction step of `test_simulated_load`
(`src/crates/sui-benchmark/tests/simtest.rs` lines 25–33):
`keystore.key_pairs()[0]` followed by the `match` that keeps only an
`Ed25519SuiKeyPair`.  `none` models the two ways the step can panic —
out-of-bounds index on an empty keystore, or the explicit panic arm for a
non-Ed25519 first keypair. -/
def keyExtraction (key_pairs : List SuiKeyPair) : Option Ed25519KeyPair :=
  match key_pairs.head? with
  | none => none
  | some (SuiKeyPair.ed25519 kp) => some kp
  | some _ => none

/-! ## Workload construction -/

/-- Benchmark error taxonomy (spec §7). -/
inductive BenchError where
  | invalidSpec
  | runAborted
deriving DecidableEq, Repr

/-- A successfully constructed combination workload: its validated spec
together with the signing keypair each worker will own a copy of. -/
structure CombinationWorkload where
  spec : WorkloadSpec
  primary_gas_id : Nat
  owner : Nat
  keypair : Ed25519KeyPair
deriving DecidableEq, Repr

/-- Modelled from the spec: `make_combination_workload` (defined in the
external `sui_benchmark::workloads` module; the source shows only its call
site) — validates the spec at construction time and fails fast with
`InvalidSpec` on zero total weight or non-positive rate/worker counts
(spec §4.1, §7). -/
def make_combination_workload (s : WorkloadSpec) (primary_gas_id owner : Nat)
    (keypair : Ed25519KeyPair) : Except BenchError CombinationWorkload :=
  if s.totalWeight = 0 then .error .invalidSpec
  else if s.target_qps = 0 then .error .invalidSpec
  else if s.num_workers = 0 then .error .invalidSpec
  else .ok { spec := s, primary_gas_id := primary_gas_id, owner := owner, keypair := keypair }

/-- Workers only ever spawn from a successfully constructed workload
(spawned by the driver at run start, spec §4.4); a failed construction
spawns none. -/
def workersSpawned : Except BenchError CombinationWorkload → Nat
  | .error _ => 0
  | .ok w => w.spec.num_workers

/-! ## Driver worker loop and cancellation -/

namespace BenchDriver

/-- A worker is at the top of its loop (`idle`), holding an in-flight
limiter token with a submission outstanding (`inFlight`), or exited
(`done`). -/
inductive WorkerPhase where
  | idle
  | inFlight
  | done
deriving DecidableEq, Repr

/-- Observable worker actions: starting a submission (token acquired) and
completing it (token released). -/
inductive WorkerAction where
  | submit
  | release
deriving DecidableEq, Repr

/-- Modelled from the spec: one iteration of the cooperative worker loop
(spec §4.4, §5).  The shared stop flag is polled at the top of the loop;
if it is set the worker exits without starting a new submission, otherwise
it draws an operation, acquires a token and submits.  An in-flight
submission is always finished and its token released — never abandoned —
before the flag is polled again. -/
def workerStep (stop : Bool) : WorkerPhase → WorkerPhase × List WorkerAction
  | .idle => if stop then (.done, []) else (.inFlight, [.submit])
  | .inFlight => (.idle, [.release])
  | .done => (.done, [])

/-- Runs a worker over a sequence of stop-flag readings, returning its
final phase and its trace of actions, each tagged with the flag reading
under which it happened. -/
def runWorker : List Bool → WorkerPhase → WorkerPhase × List (Bool × WorkerAction)
  | [], p => (p, [])
  | f :: fs, p =>
    let (p2, acts) := workerStep f p
    let (pEnd, tr) := runWorker fs p2
    (pEnd, acts.map (fun a => (f, a)) ++ tr)

/-- The limiter tokens a worker in the given phase still holds. -/
def heldTokens : WorkerPhase → Nat
  | .inFlight => 1
  | _ => 0

/-- Runs every worker of the pool over the same stop-flag schedule. -/
def runPool (fs : List Bool) (pool : List WorkerPhase) :
    List (WorkerPhase × List (Bool × WorkerAction)) :=
  pool.map (runWorker fs)

/-- Total outstanding limiter tokens across the pool's final states. -/
def poolTokens (rs : List (WorkerPhase × List (Bool × WorkerAction))) : Nat :=
  (rs.map fun r => heldTokens r.1).sum

end BenchDriver

/-! ## Theorems -/

/-- C1: the named preset `wan_latency_50ms` returns a `SimConfig` whose
default network latency is the uniform distribution over exactly
`[40ms, 60ms)`: `configs::wan_latency_50ms().net.latency.default_latency`
equals `LatencyDistribution::uniform(40ms..60ms)` (and, the preset being a
pure value, this holds for every call). -/
theorem wan_latency_50ms_default_latency :
    configs.wan_latency_50ms.net.latency.default_latency =
      LatencyDistribution.uniform ⟨Duration.fromMillis 40, Duration.fromMillis 60⟩ :=
  rfl

/-- C9: frame property of the `wan_latency_50ms` preset — it modifies only
`default_latency`: every other field of the returned `LatencyConfig`, and
every field of `NetworkConfig` other than `latency`, equals its
`Default::default()` value. -/
theorem wan_latency_50ms_frame :
    configs.wan_latency_50ms.net.latency.per_link = LatencyConfig.default.per_link ∧
    configs.wan_latency_50ms.net.misc = NetworkConfig.default.misc :=
  ⟨rfl, rfl⟩

/-- C2: `LatencyModel.sample()` is deterministic — two simulation sessions
bound to the same random seed that issue the same sequence of `sample()`
calls produce identical sequences of durations, whatever else (such as the
session identifier) distinguishes the sessions. -/
theorem latency_sample_deterministic (calls : List LatencyDistribution)
    (s1 s2 : SimSession) (h : s1.rng = s2.rng) :
    LatencyModel.sampleSeq calls s1 = LatencyModel.sampleSeq calls s2 := by
  induction calls generalizing s1 s2 with
  | nil => rfl
  | cons d ds ih =>
    cases d with
    | uniform range =>
      simp only [LatencyModel.sampleSeq, LatencyModel.sample, h]
      exact congrArg _ (ih _ _ (by simp [h]))
    | fixed dur =>
      simp only [LatencyModel.sampleSeq, LatencyModel.sample]
      exact congrArg _ (ih _ _ (by simp [h]))

/-- Witness for C2: two sessions with seed 42 but different session
identifiers sample the same durations over a concrete call sequence. -/
theorem latency_sample_deterministic_witness :
    (⟨42, 1⟩ : SimSession).rng = (⟨42, 2⟩ : SimSession).rng ∧
    LatencyModel.sampleSeq
        [LatencyDistribution.uniform ⟨Duration.fromMillis 40, Duration.fromMillis 60⟩,
         LatencyDistribution.fixed 7] ⟨42, 1⟩ =
      LatencyModel.sampleSeq
        [LatencyDistribution.uniform ⟨Duration.fromMillis 40, Duration.fromMillis 60⟩,
         LatencyDistribution.fixed 7] ⟨42, 2⟩ :=
  ⟨rfl, latency_sample_deterministic _ ⟨42, 1⟩ ⟨42, 2⟩ rfl⟩

/-- C4: for a latency model configured with a uniform distribution over
`[lo, hi)`, every duration returned by `sample()` lies in `[lo, hi)` —
in particular at the `wan_latency_50ms` range `[40ms, 60ms)`
(instantiated in the witness). -/
theorem sample_uniform_in_range (lo hi : Nat) (s : SimSession) (h : lo < hi) :
    lo ≤ (LatencyModel.sample (.uniform ⟨lo, hi⟩) s).1 ∧
      (LatencyModel.sample (.uniform ⟨lo, hi⟩) s).1 < hi := by
  have hpos : 0 < hi - lo := Nat.sub_pos_of_lt h
  have hmod : lcgNext s.rng % (hi - lo) < hi - lo := Nat.mod_lt _ hpos
  simp only [LatencyModel.sample]
  omega

/-- Witness for C4: under the `wan_latency_50ms` preset's range, a sample
at a concrete seed is at least 40ms and strictly below 60ms. -/
theorem sample_uniform_in_range_witness :
    Duration.fromMillis 40 < Duration.fromMillis 60 ∧
    (Duration.fromMillis 40 ≤
        (LatencyModel.sample
          (.uniform ⟨Duration.fromMillis 40, Duration.fromMillis 60⟩) ⟨12345, 0⟩).1 ∧
      (LatencyModel.sample
          (.uniform ⟨Duration.fromMillis 40, Duration.fromMillis 60⟩) ⟨12345, 0⟩).1 <
        Duration.fromMillis 60) :=
  ⟨by decide, sample_uniform_in_range _ _ ⟨12345, 0⟩ (by decide)⟩

/-- Helper: the limiter step never raises the outstanding count above the
capacity, so the bound is preserved along any event trace. -/
theorem InFlightLimiter.foldl_step_le (cap : Nat) :
    ∀ (trace : List InFlightLimiter.Event) (n : Nat), n ≤ cap →
      trace.foldl (InFlightLimiter.step cap) n ≤ cap := by
  intro trace
  induction trace with
  | nil => intro n hn; exact hn
  | cons e es ih =>
    intro n hn
    apply ih
    cases e with
    | acquire => simp only [InFlightLimiter.step]; split <;> omega
    | release => simp only [InFlightLimiter.step]; omega

/-- C3: for every valid `WorkloadSpec` and every interleaving of
`acquire()`/`release()` calls by the concurrent workers, the number of
outstanding `InFlightToken`s never exceeds
`ceil(target_qps × in_flight_ratio)`. -/
theorem in_flight_tokens_bounded (s : WorkloadSpec)
    (trace : List InFlightLimiter.Event) (_h : s.valid) :
    InFlightLimiter.run s trace ≤ InFlightLimiter.capacity s :=
  InFlightLimiter.foldl_step_le _ trace 0 (Nat.zero_le _)

/-- Witness for C3: the spec used by `test_simulated_load`
(`target_qps = 10`, `num_workers = 10`, ratio `5`) with a concrete
interleaving. -/
theorem in_flight_tokens_bounded_witness :
    (⟨10, 10, 5, 1, 1, 1⟩ : WorkloadSpec).valid ∧
    InFlightLimiter.run ⟨10, 10, 5, 1, 1, 1⟩
        [.acquire, .acquire, .release, .acquire] ≤
      InFlightLimiter.capacity ⟨10, 10, 5, 1, 1, 1⟩ :=
  ⟨by decide, in_flight_tokens_bounded _ _ (by decide)⟩

/-- Counterexample to C5 as stated: with `target_qps = 10`, issuance ahead
of schedule (`n_issued_so_far = 20` after one second, when the schedule
allows 10), the claim says `throttle` returns zero wait, but it returns a
positive catch-down delay. -/
theorem throttle_above_schedule_not_zero :
    10 * 1000000000 ≤ 20 * RateController.nanosPerSec ∧
    RateController.throttle 10 20 1000000000 ≠ 0 := by
  constructor
  · decide
  · decide

/-- C5, amended: `throttle` always returns a non-negative wait; when
issuance is at or *behind* schedule relative to `target_qps` it returns
zero (issues immediately, no artificial wait); when issuance is strictly
ahead of schedule it returns a positive wait. -/
theorem throttle_amended (qps n elapsed : Nat) (hq : 0 < qps) :
    0 ≤ RateController.throttle qps n elapsed ∧
    (n * RateController.nanosPerSec ≤ qps * elapsed →
      RateController.throttle qps n elapsed = 0) ∧
    (qps * (elapsed + 1) ≤ n * RateController.nanosPerSec →
      0 < RateController.throttle qps n elapsed) := by
  refine ⟨le_max_left _ _, ?_, ?_⟩
  · intro h
    have hd : n * RateController.nanosPerSec / qps ≤ elapsed :=
      Nat.div_le_of_le_mul h
    unfold RateController.throttle
    rw [max_eq_left]
    exact sub_nonpos.mpr (by exact_mod_cast hd)
  · intro h
    have hd : elapsed + 1 ≤ n * RateController.nanosPerSec / qps :=
      (Nat.le_div_iff_mul_le hq).mpr (by rw [Nat.mul_comm (elapsed + 1) qps]; exact h)
    have hlt : (0 : Int) < (n * RateController.nanosPerSec / qps : Nat) - (elapsed : Int) := by
      have : (elapsed : Int) + 1 ≤ ((n * RateController.nanosPerSec / qps : Nat) : Int) := by
        exact_mod_cast hd
      omega
    exact lt_max_of_lt_right hlt

/-- Witness for C5's amended statement: `target_qps = 10`, 5 operations
issued after 2 seconds. -/
theorem throttle_amended_witness :
    0 < 10 ∧
    (0 ≤ RateController.throttle 10 5 2000000000 ∧
      (5 * RateController.nanosPerSec ≤ 10 * 2000000000 →
        RateController.throttle 10 5 2000000000 = 0) ∧
      (10 * (2000000000 + 1) ≤ 5 * RateController.nanosPerSec →
        0 < RateController.throttle 10 5 2000000000)) :=
  ⟨by decide, throttle_amended 10 5 2000000000 (by decide)⟩

/-- C6: a `WorkloadSpec` whose operation weights sum to zero makes
`make_combination_workload` fail with `InvalidSpec` at construction time,
and no workers are spawned from the failed construction. -/
theorem make_combination_workload_zero_weight (s : WorkloadSpec)
    (primary_gas_id owner : Nat) (kp : Ed25519KeyPair)
    (h : s.totalWeight = 0) :
    make_combination_workload s primary_gas_id owner kp =
        Except.error BenchError.invalidSpec ∧
    workersSpawned (make_combination_workload s primary_gas_id owner kp) = 0 := by
  constructor
  · simp [make_combination_workload, h]
  · simp [make_combination_workload, h, workersSpawned]

/-- Witness for C6: the `test_simulated_load` parameters with both weights
set to zero. -/
theorem make_combination_workload_zero_weight_witness :
    (⟨10, 10, 5, 1, 0, 0⟩ : WorkloadSpec).totalWeight = 0 ∧
    (make_combination_workload ⟨10, 10, 5, 1, 0, 0⟩ 7 3 ⟨[1, 2]⟩ =
        Except.error BenchError.invalidSpec ∧
      workersSpawned (make_combination_workload ⟨10, 10, 5, 1, 0, 0⟩ 7 3 ⟨[1, 2]⟩) = 0) :=
  ⟨by decide, make_combination_workload_zero_weight _ 7 3 ⟨[1, 2]⟩ (by decide)⟩

/-- Helper: a worker emits a `submit` action only at a step where the
stop flag it observed was `false`. -/
theorem BenchDriver.runWorker_submit_flag :
    ∀ (fs : List Bool) (p : BenchDriver.WorkerPhase),
      ∀ fa ∈ (BenchDriver.runWorker fs p).2,
        fa.2 = BenchDriver.WorkerAction.submit → fa.1 = false := by
  intro fs
  induction fs with
  | nil =>
    intro p fa hmem
    simp [BenchDriver.runWorker] at hmem
  | cons f fs ih =>
    intro p fa hmem hsub
    cases p with
    | idle =>
      cases f with
      | false =>
        simp [BenchDriver.runWorker, BenchDriver.workerStep] at hmem
        rcases hmem with h1 | h1
        · rw [h1]
        · exact ih _ fa h1 hsub
      | true =>
        simp [BenchDriver.runWorker, BenchDriver.workerStep] at hmem
        exact ih _ fa hmem hsub
    | inFlight =>
      simp [BenchDriver.runWorker, BenchDriver.workerStep] at hmem
      rcases hmem with h1 | h1
      · rw [h1] at hsub; simp at hsub
      · exact ih _ fa h1 hsub
    | done =>
      simp [BenchDriver.runWorker, BenchDriver.workerStep] at hmem
      exact ih _ fa hmem hsub

/-- Helper: running a worker over an appended schedule composes on the
final phase. -/
theorem BenchDriver.runWorker_append_phase :
    ∀ (fs gs : List Bool) (p : BenchDriver.WorkerPhase),
      (BenchDriver.runWorker (fs ++ gs) p).1 =
        (BenchDriver.runWorker gs (BenchDriver.runWorker fs p).1).1 := by
  intro fs
  induction fs with
  | nil => intro gs p; rfl
  | cons f fs ih =>
    intro gs p
    simp only [List.cons_append, BenchDriver.runWorker]
    exact ih gs (BenchDriver.workerStep f p).1

/-- Helper: two consecutive observations of a raised stop flag drive any
worker phase to `done`. -/
theorem BenchDriver.runWorker_stop_done (p : BenchDriver.WorkerPhase) :
    (BenchDriver.runWorker [true, true] p).1 = BenchDriver.WorkerPhase.done := by
  cases p <;> rfl

/-- C7: over any stop-flag schedule that ends with the cancellation signal
raised (and observed twice, once at the top of each worker's loop and once
after an in-flight completion), every worker of the pool drives its
outstanding `InFlightLimiter` tokens to zero before `run` returns, and no
worker ever starts a submission at a step where it observed the stop
signal. -/
theorem bench_driver_cancellation (fs : List Bool)
    (pool : List BenchDriver.WorkerPhase) :
    BenchDriver.poolTokens (BenchDriver.runPool (fs ++ [true, true]) pool) = 0 ∧
    ∀ r ∈ BenchDriver.runPool (fs ++ [true, true]) pool,
      ∀ fa ∈ r.2, fa.2 = BenchDriver.WorkerAction.submit → fa.1 = false := by
  constructor
  · unfold BenchDriver.poolTokens BenchDriver.runPool
    apply List.sum_eq_zero
    intro x hx
    simp only [List.map_map, List.mem_map] at hx
    obtain ⟨p, _, hp⟩ := hx
    rw [← hp]
    simp only [Function.comp]
    rw [BenchDriver.runWorker_append_phase, BenchDriver.runWorker_stop_done]
    rfl
  · intro r hr fa hfa hsub
    unfold BenchDriver.runPool at hr
    simp only [List.mem_map] at hr
    obtain ⟨p, _, hp⟩ := hr
    rw [← hp] at hfa
    exact BenchDriver.runWorker_submit_flag _ p fa hfa hsub

/-- Helper: base64 decoding inverts base64 encoding on byte lists. -/
theorem b64decode_b64encode :
    ∀ (bs : List Nat), (∀ x ∈ bs, x < 256) → b64decode (b64encode bs) = some bs
  | [], _ => rfl
  | [a], h => by
    have ha : a < 256 := h a (by simp)
    simp only [b64encode, b64decode]
    rw [if_pos (by omega : a % 4 * 16 % 16 = 0)]
    have hval : a / 4 * 4 + a % 4 * 16 / 16 = a := by omega
    rw [hval]
  | [a, b], h => by
    have ha : a < 256 := h a (by simp)
    have hb : b < 256 := h b (by simp)
    simp only [b64encode, b64decode]
    rw [if_pos (by omega : b % 16 * 4 % 4 = 0)]
    have hv1 : a / 4 * 4 + (a % 4 * 16 + b / 16) / 16 = a := by omega
    have hv2 : (a % 4 * 16 + b / 16) % 16 * 16 + b % 16 * 4 / 4 = b := by omega
    rw [hv1, hv2]
  | a :: b :: c :: rest, h => by
    have ha : a < 256 := h a (by simp)
    have hb : b < 256 := h b (by simp)
    have hc : c < 256 := h c (by simp)
    have ih := b64decode_b64encode rest (fun x hx => h x (by simp [hx]))
    simp only [b64encode, b64decode, ih, Option.map_some]
    have hv1 : a / 4 * 4 + (a % 4 * 16 + b / 16) / 16 = a := by omega
    have hv2 : (a % 4 * 16 + b / 16) % 16 * 16 + (b % 16 * 4 + c / 64) / 4 = b := by omega
    have hv3 : (b % 16 * 4 + c / 64) % 4 * 64 + c % 64 = c := by omega
    rw [hv1, hv2, hv3]
    rfl

/-- C8: serialize/deserialize of the shared signing keypair is a round
trip — for every Ed25519 keypair, `decode_base64(encode_base64(kp))`
succeeds and yields an `Ed25519SuiKeyPair` whose key material equals
`kp`'s, so each worker's independently owned copy signs identically to the
original. -/
theorem keypair_base64_roundtrip (kp : Ed25519KeyPair)
    (h : ∀ x ∈ kp.priv, x < 256) :
    decode_base64 (encode_base64 (SuiKeyPair.ed25519 kp)) =
      some (SuiKeyPair.ed25519 kp) := by
  unfold encode_base64 decode_base64 SuiKeyPair.toBytes
  rw [b64decode_b64encode (0 :: kp.priv)
    (by intro x hx
        rcases List.mem_cons.mp hx with h0 | h0
        · omega
        · exact h x h0)]
  rfl

/-- Witness for C8: a concrete keypair round-trips through the base64
codec. -/
theorem keypair_base64_roundtrip_witness :
    (∀ x ∈ (⟨[1, 255, 0, 42, 7]⟩ : Ed25519KeyPair).priv, x < 256) ∧
    decode_base64 (encode_base64 (SuiKeyPair.ed25519 ⟨[1, 255, 0, 42, 7]⟩)) =
      some (SuiKeyPair.ed25519 ⟨[1, 255, 0, 42, 7]⟩) :=
  ⟨by decide, keypair_base64_roundtrip ⟨[1, 255, 0, 42, 7]⟩ (by decide)⟩

/-- C10: `test_simulated_load`'s key-extraction step succeeds (no panic —
neither the out-of-bounds index of `key_pairs()[0]` on an empty keystore
nor the explicit non-Ed25519 panic arm is reached) exactly when the loaded
keystore is non-empty and its first keypair is an `Ed25519SuiKeyPair`. -/
theorem keyExtraction_succeeds_iff (key_pairs : List SuiKeyPair) :
    keyExtraction key_pairs ≠ none ↔
      ∃ kp, key_pairs.head? = some (SuiKeyPair.ed25519 kp) := by
  cases key_pairs with
  | nil => simp [keyExtraction]
  | cons k ks => cases k <;> simp [keyExtraction]
